import Mathlib

-- Shallow embedding of the kernkonzept/ahci-driver core, together with
-- theorems settling the specification claims about it.  Each definition
-- mirrors one function or data structure of the C++ source; machine
-- integers are modelled as Nat with explicit truncation where the source
-- can overflow, and fallible code returns Except.

namespace Ahci

-- L4 error codes used by the driver.  The numeric values live in the L4
-- headers outside this repository; they follow errno and only their
-- distinctness matters for the claims.
def L4_EOK : Int := 0

def L4_EPERM : Int := 1

def L4_EAGAIN : Int := 11

def L4_ENOMEM : Int := 12

def L4_EBUSY : Int := 16

def L4_ENODEV : Int := 19

def L4_EINVAL : Int := 22

-- Fis::Datablock: one scatter-gather entry, a physical address plus a
-- byte count (declared in the FIS header of the driver).
structure Datablock where
  addr : Nat
  size : Nat
  deriving DecidableEq

-- Device_info::features: the C source uses 1-bit bitfields; each field
-- here holds the stored bit (0 or 1), and C truthiness tests become
-- comparisons with 0.
structure Features where
  lba : Nat
  dma : Nat
  longaddr : Nat
  s64a : Nat
  ro : Nat
  deriving DecidableEq

-- Device_info (devices.h): the fields the claims are about.  The string
-- fields (serial, model, firmware) and ATA revision words are not needed
-- by any claim and are omitted.
structure Device_info where
  sector_size : Nat
  num_sectors : Nat
  features : Features
  deriving DecidableEq

-- Word offsets into the IDENTIFY DEVICE page (devices.h).
def IID_capabilities : Nat := 49

def IID_addressable_sectors : Nat := 60

def IID_enabled_features : Nat := 85

def IID_lba_addressable_sectors : Nat := 100

def IID_logsector_size : Nat := 117

-- Device_info::set (devices.cc): decode the IDENTIFY page.  The page is
-- a function from word index to the 16-bit word stored there.  A C
-- assignment to a 1-bit bitfield keeps the low bit of the shifted value,
-- i.e. is reduction mod 2.
def Device_info.set (info : Nat → Nat) : Device_info :=
  let lba := (info IID_capabilities >>> 9) % 2
  let dma := (info IID_capabilities >>> 8) % 2
  let longaddr := (info (IID_enabled_features + 1) >>> 10) % 2
  let sector_size :=
    2 * ((info (IID_logsector_size + 1)) <<< 16 ||| info IID_logsector_size)
  let sector_size := if sector_size < 512 then 512 else sector_size
  let num_sectors :=
    if longaddr ≠ 0 then
      (info (IID_lba_addressable_sectors + 2)) <<< 32
        ||| (info (IID_lba_addressable_sectors + 1)) <<< 16
        ||| info IID_lba_addressable_sectors
    else
      (info (IID_addressable_sectors + 1)) <<< 16
        ||| info IID_addressable_sectors
  { sector_size := sector_size
    num_sectors := num_sectors
    features := { lba := lba, dma := dma, longaddr := longaddr, s64a := 0, ro := 0 } }

namespace Ata

-- Ata::Cmd (devices.cc): ATA command opcodes used by the device layer.
namespace Cmd

def Id_device : Nat := 0xec

def Read_dma : Nat := 0xc8

def Read_dma_ext : Nat := 0x25

def Read_sector : Nat := 0x20

def Read_sector_ext : Nat := 0x24

def Write_dma : Nat := 0xca

def Write_dma_ext : Nat := 0x35

def Write_sector : Nat := 0x30

def Write_sector_ext : Nat := 0x34

end Cmd

-- Fis::Taskfile as filled in by Ata::Device::inout_data.  The flags word
-- is only ever tested against Fis::Chf_write in this path, so it is
-- modelled by the Boolean `write` (the value of flags & Chf_write).
structure Taskfile where
  command : Nat
  lba : Nat
  count : Nat
  device : Nat
  data : List Datablock
  num_blocks : Nat
  icc : Nat
  control : Nat
  write : Bool
  deriving DecidableEq

-- The command-selection ladder of Ata::Device::inout_data
-- (devices.cc lines 247-264), transcribed with its ternaries exactly as
-- in the source.
def ata_command (dma longaddr : Nat) (write : Bool) : Nat :=
  if write then
    if dma ≠ 0 then
      if longaddr ≠ 0 then Cmd.Write_dma else Cmd.Write_dma_ext
    else
      if longaddr ≠ 0 then Cmd.Write_sector else Cmd.Write_sector_ext
  else
    if dma ≠ 0 then
      if longaddr ≠ 0 then Cmd.Read_dma else Cmd.Read_dma_ext
    else
      if longaddr ≠ 0 then Cmd.Read_sector else Cmd.Read_sector_ext

-- The taskfile built at the end of Ata::Device::inout_data.
def ata_taskfile (devinfo : Device_info) (sector count : Nat)
    (data : List Datablock) (write : Bool) : Taskfile :=
  { command := ata_command devinfo.features.dma devinfo.features.longaddr write
    lba := sector
    count := count
    device := 0x40
    data := data
    num_blocks := data.length
    icc := 0
    control := 0
    write := write }

-- The validation loop of Ata::Device::inout_data (devices.cc lines
-- 211-224): accumulate the byte count and on every iteration check the
-- sector-size multiple and the 32-bit-host address restriction.
-- `host64` is sizeof(l4_addr_t) == 8.
def inout_check (sector_size : Nat) (host64 : Bool) (s64a : Nat)
    (sector : Nat) : List Datablock → Nat → Except Int Nat
  | [], numsec => .ok numsec
  | d :: ds, numsec =>
    let numsec := numsec + d.size
    if numsec % sector_size ≠ 0 then .error (-L4_EINVAL)
    else if host64 = true ∧ s64a = 0 ∧ 0x100000000 ≤ sector then
      .error (-L4_EINVAL)
    else inout_check sector_size host64 s64a sector ds numsec

-- Ata::Device::inout_data (devices.cc lines 207-279).  On success the
-- result is the taskfile handed to Ahci_port::send_command; an error is
-- returned synchronously and no command reaches the port.
def inout_data (devinfo : Device_info) (host64 : Bool) (sector : Nat)
    (data : List Datablock) (write : Bool) : Except Int Taskfile :=
  match inout_check devinfo.sector_size host64 devinfo.features.s64a
      sector data 0 with
  | .error e => .error e
  | .ok bytes =>
    let numsec := bytes / devinfo.sector_size
    if devinfo.features.longaddr ≠ 0 then
      if numsec ≤ 0 ∨ 65536 < numsec ∨ 2 ^ 48 < sector then
        .error (-L4_EINVAL)
      else
        .ok (ata_taskfile devinfo sector
              (if numsec = 65536 then 0 else numsec) data write)
    else
      if numsec ≤ 0 ∨ 256 < numsec ∨ 2 ^ 28 < sector then
        .error (-L4_EINVAL)
      else
        .ok (ata_taskfile devinfo sector
              (if numsec = 256 then 0 else numsec) data write)

end Ata

-- Total number of bytes in a scatter list.
def sumSizes (data : List Datablock) : Nat :=
  (data.map Datablock.size).sum

-- A 28-bit-mode ATA disk as decoded by IDENTIFY: 512-byte sectors,
-- DMA-capable, no 48-bit addressing, 64-bit bus.
def infoDma28 : Device_info :=
  { sector_size := 512
    num_sectors := 1000000
    features := { lba := 1, dma := 1, longaddr := 0, s64a := 1, ro := 0 } }

-- A 48-bit-mode variant of the same disk.
def infoDma48 : Device_info :=
  { sector_size := 512
    num_sectors := 1000000
    features := { lba := 1, dma := 1, longaddr := 1, s64a := 1, ro := 0 } }

-- Partitioned_device (devices.h lines 178-227): a view of a parent disk
-- starting at LBA `start` and `size` sectors long.
structure Partitioned_device where
  start : Nat
  size : Nat
  deriving DecidableEq

-- Partitioned_device::inout_data (devices.h lines 199-213): range-check
-- the request against the partition and forward it to the parent with
-- the partition offset added.  The ok value is the argument triple
-- (sector, data, flags) passed to the parent's inout_data.
def Partitioned_device.inout_data (p : Partitioned_device) (sector : Nat)
    (data : List Datablock) (write : Bool) :
    Except Int (Nat × List Datablock × Bool) :=
  if p.size ≤ sector then .error (-L4_EINVAL)
  else
    let total := sumSizes data
    if p.size - sector < (total + 511) / 512 then .error (-L4_EINVAL)
    else .ok (sector + p.start, data, write)

namespace Errand

-- Poll_errand::expired (errand.h lines 46-58), unfolded into a function
-- of the errand state.  The predicate is modelled as the sequence of
-- values it returns on its successive invocations; invocation k is
-- pred k.  The result is (number of predicate invocations performed,
-- argument passed to the done callback), the done callback being called
-- exactly once when the recursion stops.
def pollExpired (pred : Nat → Bool) (retries : Int) (k : Nat) : Nat × Bool :=
  if pred k then (k + 1, true)
  else if retries - 1 ≤ 0 then (k + 1, false)
  else pollExpired pred (retries - 1) (k + 1)
termination_by retries.toNat
decreasing_by omega

-- Errand::poll (errand.h lines 175-184): one synchronous invocation of
-- the predicate, then a Poll_errand with the full retry budget.  The
-- interval only affects timing and is ignored by the model.
def poll (retries _interval : Int) (pred : Nat → Bool) : Nat × Bool :=
  if pred 0 then (1, true) else pollExpired pred retries 1

end Errand

-- The partition-array size computation of Partition_reader::get_gpt
-- (partition.cc lines 97-101): number of sectors allocated and read for
-- a GPT partition array, transcribed with the source's bitwise-and test.
def gpt_array_sectors (partition_array_size entry_size secsz : Nat) : Nat :=
  let arraysz := partition_array_size * entry_size
  let numsec := arraysz / secsz
  if arraysz &&& secsz ≠ 0 then numsec + 1 else numsec

-- Impl::Connection (ahci.h): a whole-disk device with its partition
-- views.  The driver only ever builds two-level trees: partitions are
-- created by add_partitions without sub-partitions, so a child is a
-- leaf.  `bound` models `_interface != nullptr`.
structure Part_conn where
  hid : String
  bound : Bool
  deriving DecidableEq

structure Connection where
  hid : String
  bound : Bool
  subs : List Part_conn
  deriving DecidableEq

-- Connection::contains_device (ahci.h lines 66-74), for the two-level
-- tree: a leaf contains only its own hid.
def Connection.contains_device (c : Connection) (name : String) : Bool :=
  name == c.hid || c.subs.any (fun p => name == p.hid)

-- Connection::create_interface_for (ahci.h lines 122-154) evaluated on a
-- leaf (partition) connection, whose _subs list is empty: the recursion
-- reduces to the interface check and the own-hid match.
def Part_conn.create_interface_for (p : Part_conn) (name : String) :
    Int × Part_conn :=
  if p.bound then ((if name == p.hid then -L4_EBUSY else -L4_ENODEV), p)
  else if name == p.hid then (L4_EOK, { p with bound := true })
  else (-L4_ENODEV, p)

-- The partition loop of Connection::create_interface_for: accumulate the
-- busy flag over the children and return early on any result other than
-- ENODEV.  Result: (early return value if any, busy flag, new children).
def create_loop (name : String) : List Part_conn → Bool →
    Option Int × Bool × List Part_conn
  | [], busy => (none, busy, [])
  | p :: rest, busy =>
    let busy := busy || p.bound
    let (ret, p') := p.create_interface_for name
    if ret ≠ -L4_ENODEV then (some ret, busy, p' :: rest)
    else
      let (o, b, rest') := create_loop name rest busy
      (o, b, p' :: rest')

-- Connection::create_interface_for (ahci.h lines 122-154) at the root.
def Connection.create_interface_for (c : Connection) (name : String) :
    Int × Connection :=
  if c.bound then
    ((if c.contains_device name then -L4_EBUSY else -L4_ENODEV), c)
  else
    match create_loop name c.subs false with
    | (some ret, _, subs) => (ret, { c with subs := subs })
    | (none, busy, subs) =>
      if name == c.hid then
        if busy then (-L4_EBUSY, { c with subs := subs })
        else (L4_EOK, { c with bound := true, subs := subs })
      else (-L4_ENODEV, { c with subs := subs })

-- A bound interface is identified by the node holding it.
inductive NodeRef where
  | root
  | part (i : Nat)

def release_sub : Nat → List Part_conn → List Part_conn
  | _, [] => []
  | 0, p :: rest => { p with bound := false } :: rest
  | i + 1, p :: rest => p :: release_sub i rest

-- Connection::release_interface (ahci.h lines 162-169): unbind the node
-- holding the given interface.
def Connection.release_interface (c : Connection) : NodeRef → Connection
  | .root => { c with bound := false }
  | .part i => { c with subs := release_sub i c.subs }

-- Connections are created unbound at discovery (Connection constructor)
-- and partitions are added unbound (add_partitions).
def Connection.init (hid : String) (parts : List String) : Connection :=
  { hid := hid
    bound := false
    subs := parts.map fun h => { hid := h, bound := false } }

-- The states a Connection subtree can be in after any sequence of
-- factory create and release calls starting from discovery.
inductive Reachable : Connection → Prop where
  | init (hid : String) (parts : List String) :
      Reachable (Connection.init hid parts)
  | create (c : Connection) (name : String) :
      Reachable c → Reachable (c.create_interface_for name).2
  | release (c : Connection) (r : NodeRef) :
      Reachable c → Reachable (c.release_interface r)

-- Number of interfaces bound in the subtree.
def Connection.countBound (c : Connection) : Nat :=
  (if c.bound then 1 else 0) + c.subs.countP (fun p => p.bound)

-- Ahci_virtio_driver state (ahci.h lines 287-295): the connection roots
-- and the counter `_available_devices`, which start_device_discovery
-- increments once per device whose scan is started (ahci.cc line 65) and
-- which is never decremented; _connpts receives a connection when its
-- scan completes (ahci.cc line 69).
structure Driver_state where
  connpts : List Connection
  available_devices : Nat
  deriving DecidableEq

-- The connection loop of Ahci_virtio_driver::op_create (ahci.cc lines
-- 125-145).  `reg_ok` models whether registering the new interface in
-- the object registry yields a valid capability; on failure the
-- interface is released again, restoring the connection.
def op_create_loop (name : String) (reg_ok : Bool) :
    List Connection → Option Int × List Connection
  | [] => (none, [])
  | c :: rest =>
    let (ret, c') := c.create_interface_for name
    if ret = L4_EOK then
      if reg_ok then (some L4_EOK, c' :: rest)
      else (some (-L4_ENOMEM), c :: rest)
    else if ret ≠ -L4_ENODEV then (some ret, c' :: rest)
    else
      let (o, rest') := op_create_loop name reg_ok rest
      (o, c' :: rest')

-- Ahci_virtio_driver::op_create (ahci.cc lines 97-148).  The factory
-- checks the S right, then validates num_ds, and only then parses the
-- name argument and walks the connections; num_ds is the value of the
-- unsigned variable holding the first Varg.
def op_create (st : Driver_state) (has_s_right : Bool) (num_ds : Nat)
    (name : String) (reg_ok : Bool) : Int × Driver_state :=
  if has_s_right = false then (-L4_EPERM, st)
  else if num_ds = 0 ∨ 256 < num_ds then (-L4_EINVAL, st)
  else
    match op_create_loop name reg_ok st.connpts with
    | (some ret, conns) => (ret, { st with connpts := conns })
    | (none, conns) =>
      ((if st.connpts.length < st.available_devices then -L4_EAGAIN
        else -L4_ENODEV), { st with connpts := conns })

namespace Virtio

-- sizeof(l4virtio_block_header_t): type u32, ioprio u32, sector u64.
def Header_size : Nat := 16

-- Virtio block status bytes (l4virtio ABI): OK, IOERR, UNSUPP.
def S_OK : Nat := 0

def S_IOERR : Nat := 1

def S_UNSUPP : Nat := 2

-- One virtio descriptor as seen by the chain walk: guest address and
-- 32-bit length.
structure Desc where
  addr : Nat
  len : Nat
  deriving DecidableEq

-- Decrement of the u32 descriptor length (`--data.len`), with the
-- wrap-around a zero length would produce.
def u32dec (n : Nat) : Nat := (n + (2 ^ 32 - 1)) % 2 ^ 32

-- Outcome of processing one descriptor chain in Block_dev::kick:
-- a Bad_descriptor exception marks the device config failed and consumes
-- the chain without dispatching anything; `finalized` means
-- finalize_request wrote `status` to the byte at `status_addr` and
-- consumed the chain; `dispatched` means process_request received the
-- scatter list with the status byte location resolved to `status_addr`.
inductive Kick_result where
  | bad_descriptor
  | finalized (status : Nat) (status_addr : Nat)
  | dispatched (blocks : List Desc) (status_addr : Nat)
  deriving DecidableEq

-- The scatter-list walk of Block_dev::kick (virtio_block.h lines
-- 377-404): `cur` is the descriptor currently in `data`, `processed`
-- counts descriptors, `acc` is the request's scatter list.
def kick_loop (max_block vq_max : Nat) :
    List Desc → Nat → Nat → Desc → List Desc → Kick_result
  | [], _, status, cur, acc =>
    let status_addr := cur.addr + cur.len
    if status ≠ S_OK then .finalized status status_addr
    else .dispatched acc status_addr
  | d :: ds, processed, status, _, acc =>
    let status := if max_block < d.len then S_UNSUPP else status
    let d := if ds.isEmpty then { d with len := u32dec d.len } else d
    let processed := processed + 1
    if vq_max < processed then .bad_descriptor
    else
      kick_loop max_block vq_max ds processed status d
        (if status = S_OK ∧ 0 < d.len then acc ++ [d] else acc)

-- Processing of one descriptor chain in Block_dev::kick (virtio_block.h
-- lines 356-410): header checks, then the scatter walk.
def kick_chain (max_block vq_max : Nat) : List Desc → Kick_result
  | [] => .bad_descriptor
  | d :: rest =>
    if d.len < Header_size then .bad_descriptor
    else if rest.isEmpty ∧ d.len = Header_size then .bad_descriptor
    else kick_loop max_block vq_max rest 1 S_OK d []

-- Where the walk leaves the status byte: the final byte of the final
-- descriptor (the first one if the chain has no others).
def last_status_addr (cur : Desc) (rest : List Desc) : Nat :=
  match rest.getLast? with
  | none => cur.addr + cur.len
  | some d => d.addr + u32dec d.len

end Virtio

-- A freshly scanned disk named DISK with two partitions P1 and P2.
def connTwoParts : Connection := Connection.init "DISK" ["P1", "P2"]

-- An IDENTIFY page whose longaddr bit (word 86 bit 10) is set, with
-- words 100..102 zero and word 103 equal to 1; every other word is 0.
def infoPage103 : Nat → Nat := fun i =>
  if i = IID_enabled_features + 1 then 1 <<< 10
  else if i = IID_lba_addressable_sectors + 3 then 1
  else 0

end Ahci

namespace Ahci

-- Helper lemmas about the embedding.

-- The validation loop, when it succeeds, returns the accumulator plus
-- the total byte count of the scatter list.
theorem inout_check_ok (sector_size : Nat) (host64 : Bool) (s64a : Nat)
    (sector : Nat) :
    ∀ (data : List Datablock) (acc bytes : Nat),
      Ata.inout_check sector_size host64 s64a sector data acc = .ok bytes →
      bytes = acc + sumSizes data := by
  intro data
  induction data with
  | nil =>
    intro acc bytes h
    simp only [Ata.inout_check, Except.ok.injEq] at h
    simp [sumSizes, h]
  | cons d ds ih =>
    intro acc bytes h
    rw [Ata.inout_check] at h
    split at h
    · exact absurd h (by simp)
    · split at h
      · exact absurd h (by simp)
      · have := ih (acc + d.size) bytes h
        simp only [sumSizes, List.map_cons, List.sum_cons] at this ⊢
        omega

/-- C1 (code_bug evidence): the spec table requires READ_DMA (0xC8) for a
DMA read without longaddr and READ_DMA_EXT (0x25) for a DMA read with
longaddr, and likewise for writes; the code's ternaries are inverted and
issue the EXT opcode exactly in the non-longaddr case.  Evaluating
inout_data on a DMA-capable 28-bit device shows a read goes out as
READ_DMA_EXT (0x25) instead of READ_DMA (0xC8), and on a 48-bit device
as READ_DMA (0xC8) instead of READ_DMA_EXT (0x25). -/
theorem ata_opcode_table_violated :
    (Ata.inout_data infoDma28 true 0 [⟨0, 512⟩] false).map
        Ata.Taskfile.command = .ok Ata.Cmd.Read_dma_ext ∧
    (Ata.inout_data infoDma48 true 0 [⟨0, 512⟩] false).map
        Ata.Taskfile.command = .ok Ata.Cmd.Read_dma ∧
    Ata.Cmd.Read_dma_ext = 0x25 ∧ Ata.Cmd.Read_dma = 0xc8 :=
  ⟨rfl, rfl, rfl, rfl⟩

/-- C2 (code_bug evidence): the claim requires InvalidArgument whenever
the LBA is not strictly below 2^28 (28-bit mode) resp. 2^48 (48-bit
mode); the code checks `sector > (1 << 28)` resp. `sector > (1 << 48)`,
so the boundary LBAs 2^28 and 2^48 — which do not fit the address
width — are accepted and a command is issued to the port. -/
theorem ata_lba_boundary_accepted :
    (∃ t, Ata.inout_data infoDma28 true (2 ^ 28) [⟨0, 512⟩] false = .ok t) ∧
    (∃ t, Ata.inout_data infoDma48 true (2 ^ 48) [⟨0, 512⟩] false = .ok t) :=
  ⟨⟨_, rfl⟩, ⟨_, rfl⟩⟩

/-- C3: a partition view forwards an in-range request to the parent with
the partition start added to the LBA and the scatter list and flags
unchanged, and rejects a request that starts at or beyond the partition
or whose rounded-up sector count overruns it with InvalidArgument,
without invoking the parent. -/
theorem partitioned_inout_data_forwards (p : Partitioned_device)
    (sector : Nat) (data : List Datablock) (write : Bool) :
    (sector < p.size ∧ sector + (sumSizes data + 511) / 512 ≤ p.size →
      p.inout_data sector data write = .ok (sector + p.start, data, write)) ∧
    (p.size ≤ sector ∨ p.size < sector + (sumSizes data + 511) / 512 →
      p.inout_data sector data write = .error (-L4_EINVAL)) := by
  unfold Partitioned_device.inout_data
  constructor
  · rintro ⟨h1, h2⟩
    rw [if_neg (by omega)]
    simp only
    rw [if_neg (by omega)]
  · intro h
    rcases Nat.lt_or_ge sector p.size with hs | hs
    · rw [if_neg (by omega)]
      simp only
      rw [if_pos (by omega)]
    · rw [if_pos (by omega)]

/-- C3 witness: a request of 1024 bytes at sector 10 of a 100-sector
partition starting at LBA 2048 is forwarded to the parent at LBA 2058. -/
theorem partitioned_inout_data_forwards_witness :
    Partitioned_device.inout_data ⟨2048, 100⟩ 10 [⟨0, 1024⟩] false
      = .ok (10 + 2048, [⟨0, 1024⟩], false) :=
  (partitioned_inout_data_forwards ⟨2048, 100⟩ 10 [⟨0, 1024⟩] false).1
    (by decide)

/-- C5 (code_bug evidence): for a GPT with 2 entries of 128 bytes on a
512-byte-sector device the claim requires ceil(256/512) = 1 sector; the
code tests `arraysz & secsz` (bitwise and) instead of `arraysz % secsz`
and allocates 0 sectors, so the region read is smaller than the
partition array. -/
theorem gpt_array_sectors_not_rounded_up :
    gpt_array_sectors 2 128 512 = 0 ∧
    (2 * 128 + 512 - 1) / 512 = 1 ∧
    gpt_array_sectors 2 128 512 * 512 < 2 * 128 := by
  decide

/-- C10: for every transfer inout_data admits, the count field of the
taskfile handed to the port is the total sector count reduced modulo the
mode's maximum — 65536 in 48-bit mode, 256 in 28-bit mode — so a
full-range transfer is encoded as 0 and any smaller one as itself. -/
theorem ata_count_encoding (devinfo : Device_info) (host64 : Bool)
    (sector : Nat) (data : List Datablock) (write : Bool)
    (task : Ata.Taskfile)
    (h : Ata.inout_data devinfo host64 sector data write = .ok task) :
    task.count = (sumSizes data / devinfo.sector_size) %
      (if devinfo.features.longaddr ≠ 0 then 65536 else 256) := by
  unfold Ata.inout_data at h
  cases hc : Ata.inout_check devinfo.sector_size host64 devinfo.features.s64a
      sector data 0 with
  | error e => rw [hc] at h; exact absurd h (by simp)
  | ok bytes =>
    rw [hc] at h
    have hb : bytes = sumSizes data :=
      by simpa using inout_check_ok _ _ _ _ data 0 bytes hc
    simp only at h
    split at h
    · rename_i hlong
      rw [if_pos hlong]
      split at h
      · exact absurd h (by simp)
      · rename_i hrange
        simp only [Except.ok.injEq] at h
        subst h
        simp only [Ata.ata_taskfile, hb] at *
        rcases Nat.eq_or_lt_of_le (by omega :
            sumSizes data / devinfo.sector_size ≤ 65536) with he | hlt
        · rw [if_pos he, he]
        · rw [if_neg (by omega)]
          omega
    · rename_i hlong
      rw [if_neg hlong]
      split at h
      · exact absurd h (by simp)
      · rename_i hrange
        simp only [Except.ok.injEq] at h
        subst h
        simp only [Ata.ata_taskfile, hb] at *
        rcases Nat.eq_or_lt_of_le (by omega :
            sumSizes data / devinfo.sector_size ≤ 256) with he | hlt
        · rw [if_pos he, he]
        · rw [if_neg (by omega)]
          omega

-- Bitwise-or of an even number with anything splits off the low bit.
theorem two_mul_lor (x b : Nat) :
    2 * x ||| b = 2 * (x ||| b >>> 1) + b % 2 := by
  have hx : 2 * x = Nat.bit false x := by simp [Nat.bit]
  conv_lhs => rw [hx, ← Nat.bit_decide_mod_two_eq_one_shiftRight_one b]
  rw [Nat.lor_bit]
  simp only [Bool.false_or, Nat.bit_val]
  rcases Nat.mod_two_eq_zero_or_one b with h | h <;> simp [h]

-- A left shift or-ed with a value small enough to fit below it is plain
-- positional addition: this justifies reading the IDENTIFY word
-- composition a << 16 | b arithmetically.
theorem shiftLeft_lor_eq_add :
    ∀ (k a b : Nat), b < 2 ^ k → a <<< k ||| b = 2 ^ k * a + b := by
  intro k
  induction k with
  | zero =>
    intro a b hb
    have hz : b = 0 := by omega
    subst hz
    simp
  | succ k ih =>
    intro a b hb
    have hs : a <<< (k + 1) = 2 * (a <<< k) := Nat.shiftLeft_succ a k
    rw [pow_succ] at hb ⊢
    rw [hs, two_mul_lor,
      ih a (b >>> 1) (by rw [Nat.shiftRight_one]; omega),
      Nat.shiftRight_one]
    generalize (2 : Nat) ^ k = P at *
    ring_nf
    omega

/-- C4 counterexample: with max_retries = 2 and a predicate that always
returns false, the predicate is invoked 3 times — once synchronously in
poll and twice more from the errand — before done(false) fires, not the
2 times the claim states. -/
theorem errand_poll_count_counterexample :
    Errand.poll 2 1000 (fun _ => false) = (3, false) ∧ (3 : Nat) ≠ 2 := by
  refine ⟨?_, by decide⟩
  rw [Errand.poll]
  rw [if_neg (by simp)]
  rw [Errand.pollExpired]
  rw [if_neg (by simp), if_neg (by norm_num)]
  rw [Errand.pollExpired]
  rw [if_neg (by simp), if_pos (by norm_num)]

-- The invocation trace of Poll_errand::expired: starting at invocation
-- index k with an integer retry budget, done(false) comes after the
-- budget is exhausted by false returns, done(true) right after the
-- first true return.
theorem pollExpired_spec (pred : Nat → Bool) :
    ∀ (n : Nat) (retries : Int), retries.toNat = n → 1 ≤ retries →
      ∀ (k : Nat),
        ((∀ i, k ≤ i → i < k + n → pred i = false) →
          Errand.pollExpired pred retries k = (k + n, false)) ∧
        (∀ j, k ≤ j → j < k + n → pred j = true →
            (∀ i, k ≤ i → i < j → pred i = false) →
          Errand.pollExpired pred retries k = (j + 1, true)) := by
  intro n
  induction n using Nat.strong_induction_on with
  | _ n ih =>
    intro retries hn h1 k
    constructor
    · intro hall
      rw [Errand.pollExpired]
      rw [if_neg (by simp [hall k (Nat.le_refl k) (by omega)])]
      by_cases hr : retries - 1 ≤ 0
      · rw [if_pos hr]
        have hone : n = 1 := by omega
        rw [hone]
      · rw [if_neg hr]
        have hrec := (ih (n - 1) (by omega) (retries - 1) (by omega)
          (by omega) (k + 1)).1
        rw [hrec (fun i hi1 hi2 => hall i (by omega) (by omega))]
        have harith : k + 1 + (n - 1) = k + n := by omega
        rw [harith]
    · intro j hkj hjn hj hmin
      rw [Errand.pollExpired]
      by_cases hjk : j = k
      · subst hjk
        rw [if_pos hj]
      · rw [if_neg (by simp [hmin k (Nat.le_refl k) (by omega)])]
        by_cases hr : retries - 1 ≤ 0
        · exfalso
          omega
        · rw [if_neg hr]
          exact (ih (n - 1) (by omega) (retries - 1) (by omega) (by omega)
              (k + 1)).2 j (by omega) (by omega) hj
              (fun i hi1 hi2 => hmin i (by omega) hi2)

/-- C4 (amended): Errand::poll invokes the predicate once synchronously
and then up to max_retries further times from the errand queue.  done
true is invoked exactly once immediately after the first invocation on
which the predicate returns true, and if every invocation returns false,
done false is invoked exactly once after max_retries + 1 invocations of
the predicate (for max_retries ≥ 1) — not after max_retries of them. -/
theorem errand_poll_spec (retries interval : Int) (pred : Nat → Bool)
    (h : 1 ≤ retries) :
    (∀ j, pred j = true → (∀ i, i < j → pred i = false) →
        j ≤ retries.toNat →
        Errand.poll retries interval pred = (j + 1, true)) ∧
    ((∀ k, k ≤ retries.toNat → pred k = false) →
        Errand.poll retries interval pred = (retries.toNat + 1, false)) := by
  constructor
  · intro j hj hmin hle
    rw [Errand.poll]
    by_cases h0 : j = 0
    · subst h0
      rw [if_pos hj]
    · rw [if_neg (by simp [hmin 0 (by omega)])]
      exact (pollExpired_spec pred retries.toNat retries rfl h 1).2 j
        (by omega) (by omega) hj (fun i hi1 hi2 => hmin i hi2)
  · intro hall
    rw [Errand.poll]
    rw [if_neg (by simp [hall 0 (by omega)])]
    rw [(pollExpired_spec pred retries.toNat retries rfl h 1).1
      (fun i hi1 hi2 => hall i (by omega))]
    rw [Nat.add_comm]

/-- C4 witness: polling with budget 2 and an always-false predicate
performs 3 invocations in total and reports false. -/
theorem errand_poll_spec_witness :
    Errand.poll 2 7 (fun _ => false) = ((2 : Int).toNat + 1, false) :=
  (errand_poll_spec 2 7 (fun _ => false) (by norm_num)).2 (fun _ _ => rfl)

/-- C6 counterexample: an IDENTIFY page with the longaddr bit set whose
words 100..102 are zero and whose word 103 is 1 decodes to
num_sectors = 0, while the value formed from words 100..103 as the claim
states would be 2^48. -/
theorem device_info_set_word103_ignored :
    (Device_info.set infoPage103).features.longaddr = 1 ∧
    (Device_info.set infoPage103).num_sectors = 0 ∧
    infoPage103 IID_lba_addressable_sectors
        + 2 ^ 16 * infoPage103 (IID_lba_addressable_sectors + 1)
        + 2 ^ 32 * infoPage103 (IID_lba_addressable_sectors + 2)
        + 2 ^ 48 * infoPage103 (IID_lba_addressable_sectors + 3) = 2 ^ 48 ∧
    (0 : Nat) ≠ 2 ^ 48 := by
  refine ⟨rfl, rfl, by decide, by decide⟩

/-- C6 (amended): Device_info::set decodes an IDENTIFY page (each word a
16-bit value) as follows: sector_size is twice the 32-bit value formed
from words 117 (low) and 118 (high), normalized to 512 when the result
is below 512; when the longaddr feature bit (word 86 bit 10) is set,
num_sectors is the 48-bit value formed from words 100 (low) to 102
(high) — word 103 is not read — and otherwise the 32-bit value formed
from words 60..61. -/
theorem device_info_set_decode (info : Nat → Nat)
    (hw : ∀ i, info i < 2 ^ 16) :
    (Device_info.set info).sector_size
        = max 512 (2 * (2 ^ 16 * info 118 + info 117)) ∧
    ((info 86 >>> 10) % 2 = 1 →
      (Device_info.set info).num_sectors
        = 2 ^ 32 * info 102 + 2 ^ 16 * info 101 + info 100) ∧
    ((info 86 >>> 10) % 2 = 0 →
      (Device_info.set info).num_sectors = 2 ^ 16 * info 61 + info 60) := by
  unfold Device_info.set
  simp only [IID_capabilities, IID_addressable_sectors, IID_enabled_features,
    IID_lba_addressable_sectors, IID_logsector_size]
  norm_num
  refine ⟨?_, ?_, ?_⟩
  · rw [shiftLeft_lor_eq_add 16 (info 118) (info 117) (hw 117)]
    rcases le_or_lt 512 (2 * (2 ^ 16 * info 118 + info 117)) with h | h
    · rw [if_neg (by omega), Nat.max_eq_right (by omega)]
      omega
    · rw [if_pos (by omega), Nat.max_eq_left (by omega)]
  · intro h
    rw [if_pos (by omega)]
    rw [Nat.lor_assoc,
      shiftLeft_lor_eq_add 16 (info 101) (info 100) (hw 100),
      shiftLeft_lor_eq_add 32 (info 102) _
        (by have := hw 101; have := hw 100; omega)]
    omega
  · intro h
    rw [if_neg (by omega)]
    rw [shiftLeft_lor_eq_add 16 (info 61) (info 60) (hw 60)]
    omega

/-- C6 witness: on the concrete page infoPage103 the longaddr bit is set
and num_sectors decodes to the words 100..102 composition. -/
theorem device_info_set_decode_witness :
    (Device_info.set infoPage103).num_sectors
      = 2 ^ 32 * infoPage103 102 + 2 ^ 16 * infoPage103 101
          + infoPage103 100 :=
  (device_info_set_decode infoPage103
    (by intro i; simp only [infoPage103]; split <;> first | decide | split <;> decide)).2.1
    (by decide)

-- A child whose hid differs from the name is left unchanged by the
-- leaf-level create and reports ENODEV.
theorem leaf_create_no_match (p : Part_conn) (name : String)
    (h : (name == p.hid) = false) :
    p.create_interface_for name = (-L4_ENODEV, p) := by
  unfold Part_conn.create_interface_for
  rcases hb : p.bound with _ | _
  · rw [if_neg (by simp [hb]), if_neg (by simp [h])]
  · rw [if_pos (by simp [hb]), h]
    simp [L4_EBUSY, L4_ENODEV]

-- The partition loop, when the name matches no child, completes with no
-- early return, leaves the children unchanged, and accumulates whether
-- any child is bound.
theorem create_loop_no_match (name : String) :
    ∀ (subs : List Part_conn) (busy : Bool),
      (∀ p ∈ subs, (name == p.hid) = false) →
      create_loop name subs busy =
        (none, busy || subs.any (fun p => p.bound), subs) := by
  intro subs
  induction subs with
  | nil =>
    intro busy hno
    simp [create_loop]
  | cons p rest ih =>
    intro busy hno
    rw [create_loop]
    rw [leaf_create_no_match p name (hno p (by simp))]
    simp only
    rw [if_neg (by simp)]
    rw [ih (busy || p.bound) (fun q hq => hno q (by simp [hq]))]
    simp [Bool.or_assoc]

-- A connection containing no node with the given hid reports ENODEV and
-- is left unchanged.
theorem connection_no_match (c : Connection) (name : String)
    (h : c.contains_device name = false) :
    c.create_interface_for name = (-L4_ENODEV, c) := by
  have hroot : (name == c.hid) = false := by
    simp only [Connection.contains_device, Bool.or_eq_false_iff] at h
    exact h.1
  have hsubs : ∀ p ∈ c.subs, (name == p.hid) = false := by
    simp only [Connection.contains_device, Bool.or_eq_false_iff,
      List.any_eq_false] at h
    intro p hp
    simpa using h.2 p hp
  unfold Connection.create_interface_for
  rcases hb : c.bound with _ | _
  · rw [if_neg (by simp [hb])]
    rw [create_loop_no_match name c.subs false hsubs]
    simp only [hroot, Bool.false_eq_true, if_false]
    rw [← hb]
  · rw [if_pos (by simp [hb]), h]
    simp only [Bool.false_eq_true, if_false]

-- The op_create connection walk, when no connection contains the name,
-- completes without an early return and leaves every connection
-- unchanged.
theorem op_create_loop_no_match (name : String) (reg_ok : Bool) :
    ∀ (conns : List Connection),
      (∀ c ∈ conns, c.contains_device name = false) →
      op_create_loop name reg_ok conns = (none, conns) := by
  intro conns
  induction conns with
  | nil => intro hno; simp [op_create_loop]
  | cons c rest ih =>
    intro hno
    rw [op_create_loop]
    rw [connection_no_match c name (hno c (by simp))]
    simp only
    rw [if_neg (by simp [L4_EOK, L4_ENODEV]), if_neg (by simp)]
    rw [ih (fun d hd => hno d (by simp [hd]))]

/-- C8: with the S right granted, op_create rejects num_ds = 0 or
num_ds > 256 with InvalidArgument whatever the name is; and when the
name matches no connection subtree it returns Retry (EAGAIN) exactly
when available_devices — the driver's count of devices whose scan has
been started — exceeds the number of completed connections, and
NotFound (ENODEV) otherwise, leaving the state unchanged. -/
theorem op_create_spec (st : Driver_state) (num_ds : Nat) (name : String)
    (reg_ok : Bool) :
    ((num_ds = 0 ∨ 256 < num_ds) →
      op_create st true num_ds name reg_ok = (-L4_EINVAL, st)) ∧
    (1 ≤ num_ds → num_ds ≤ 256 →
      (∀ c ∈ st.connpts, c.contains_device name = false) →
      op_create st true num_ds name reg_ok =
        ((if st.connpts.length < st.available_devices then -L4_EAGAIN
          else -L4_ENODEV), st)) := by
  constructor
  · intro h
    unfold op_create
    rw [if_neg (by simp), if_pos h]
  · intro h1 h2 hno
    unfold op_create
    rw [if_neg (by simp), if_neg (by omega)]
    rw [op_create_loop_no_match name reg_ok st.connpts hno]

/-- C8 witness: a request for 257 dataspaces is rejected with
InvalidArgument, and a request for an unknown name on a driver with one
device still scanning and no completed connection returns Retry. -/
theorem op_create_spec_witness :
    op_create ⟨[], 1⟩ true 257 "DISK" true = (-L4_EINVAL, ⟨[], 1⟩) ∧
    op_create ⟨[], 1⟩ true 1 "DISK" true = (-L4_EAGAIN, ⟨[], 1⟩) :=
  ⟨(op_create_spec ⟨[], 1⟩ 257 "DISK" true).1 (by decide),
   (op_create_spec ⟨[], 1⟩ 1 "DISK" true).2 (by decide) (by decide)
     (by simp)⟩

-- Stepping the status-byte location: consuming one descriptor moves the
-- reference descriptor, adjusting it when it is the last one.
theorem last_status_addr_cons (cur d : Virtio.Desc) (ds : List Virtio.Desc) :
    Virtio.last_status_addr cur (d :: ds) =
      Virtio.last_status_addr
        (if ds.isEmpty then { d with len := Virtio.u32dec d.len } else d) ds := by
  cases ds with
  | nil => simp [Virtio.last_status_addr]
  | cons e es =>
    simp only [Virtio.last_status_addr, List.isEmpty_cons, Bool.false_eq_true,
      if_false, List.getLast?_cons_cons]
    rcases hx : (e :: es).getLast? with _ | x
    · exact absurd hx (by simp)
    · simp only [hx]

-- For a 32-bit length between 1 and 2^32 - 1 the wrapped decrement is
-- the plain decrement.
theorem u32dec_eq (n : Nat) (h1 : 1 ≤ n) (h2 : n < 2 ^ 32) :
    Virtio.u32dec n = n - 1 := by
  unfold Virtio.u32dec
  omega

-- Once the walk's status is Unsupported, or some remaining descriptor
-- exceeds the block-size limit, a walk that stays within the queue
-- budget ends in finalize_request with status Unsupported at the status
-- byte of the final descriptor.
theorem kick_loop_unsupp (max_block vq_max : Nat) :
    ∀ (rest : List Virtio.Desc) (processed status : Nat)
      (cur : Virtio.Desc) (acc : List Virtio.Desc),
      processed + rest.length ≤ vq_max →
      (status = Virtio.S_UNSUPP ∨
        rest.any (fun d => max_block < d.len) = true) →
      Virtio.kick_loop max_block vq_max rest processed status cur acc =
        .finalized Virtio.S_UNSUPP (Virtio.last_status_addr cur rest) := by
  intro rest
  induction rest with
  | nil =>
    intro processed status cur acc hlen hun
    have hs : status = Virtio.S_UNSUPP := by simpa using hun
    subst hs
    rw [Virtio.kick_loop]
    rw [if_pos (by simp [Virtio.S_UNSUPP, Virtio.S_OK])]
    simp [Virtio.last_status_addr]
  | cons d ds ih =>
    intro processed status cur acc hlen hun
    rw [Virtio.kick_loop]
    simp only [List.length_cons] at hlen
    rw [if_neg (show ¬ vq_max < processed + 1 by omega)]
    rw [last_status_addr_cons cur d ds]
    by_cases hbig : max_block < d.len
    · rw [if_pos hbig]
      apply ih
      · omega
      · left
        rfl
    · rw [if_neg hbig]
      apply ih
      · omega
      · rcases hun with hs | hany
        · left
          exact hs
        · rcases (by simpa using hany :
            max_block < d.len ∨ ds.any (fun e => max_block < e.len) = true)
            with h | h
          · exact absurd h hbig
          · right
            exact h

/-- C9: for every descriptor chain pulled by kick, (a) a first
descriptor shorter than the request header makes the chain a bad
descriptor — the device config is marked failed and the chain is
consumed with nothing dispatched; (b) so does a chain whose single
descriptor carries exactly the header; (c) if some scatter descriptor
exceeds max_block_size and the chain fits the queue budget, the walk
still reaches the last descriptor and the request is finalized with
status Unsupported at the status byte location; and (d) that location is
the final byte of the final descriptor. -/
theorem kick_chain_spec (max_block vq_max : Nat) (first : Virtio.Desc)
    (rest : List Virtio.Desc) :
    (first.len < Virtio.Header_size →
      Virtio.kick_chain max_block vq_max (first :: rest)
        = .bad_descriptor) ∧
    (rest = [] → first.len = Virtio.Header_size →
      Virtio.kick_chain max_block vq_max (first :: rest)
        = .bad_descriptor) ∧
    (Virtio.Header_size ≤ first.len → rest ≠ [] →
      (first :: rest).length ≤ vq_max →
      rest.any (fun d => max_block < d.len) = true →
      Virtio.kick_chain max_block vq_max (first :: rest) =
        .finalized Virtio.S_UNSUPP (Virtio.last_status_addr first rest)) ∧
    (∀ dl, rest.getLast? = some dl → 1 ≤ dl.len → dl.len < 2 ^ 32 →
      Virtio.last_status_addr first rest = dl.addr + (dl.len - 1)) := by
  refine ⟨?_, ?_, ?_, ?_⟩
  · intro h
    rw [Virtio.kick_chain, if_pos h]
  · intro he h
    subst he
    rw [Virtio.kick_chain, if_neg (by omega), if_pos (by simp [h])]
  · intro hh hne hlen hany
    rw [Virtio.kick_chain, if_neg (by omega),
      if_neg (by simp [List.isEmpty_iff, hne])]
    apply kick_loop_unsupp
    · simp only [List.length_cons] at hlen
      omega
    · right
      exact hany
  · intro dl hdl h1 h2
    simp only [Virtio.last_status_addr, hdl]
    rw [u32dec_eq dl.len h1 h2]

/-- C9 witness: a chain with a 16-byte header descriptor and one
512-byte data descriptor on a device with max_block_size 256 and queue
size 8 is finalized with status Unsupported, the status byte resolved to
the data descriptor's final byte 200 + 511. -/
theorem kick_chain_spec_witness :
    Virtio.kick_chain 256 8 [⟨100, 16⟩, ⟨200, 512⟩]
        = .finalized Virtio.S_UNSUPP
            (Virtio.last_status_addr ⟨100, 16⟩ [⟨200, 512⟩]) ∧
    Virtio.last_status_addr ⟨100, 16⟩ [⟨200, 512⟩] = 200 + (512 - 1) :=
  ⟨(kick_chain_spec 256 8 ⟨100, 16⟩ [⟨200, 512⟩]).2.2.1 (by decide)
      (by decide) (by decide) (by decide),
   (kick_chain_spec 256 8 ⟨100, 16⟩ [⟨200, 512⟩]).2.2.2 ⟨200, 512⟩ rfl
      (by decide) (by decide)⟩

-- The three possible outcomes of create_interface_for on a child.
theorem leaf_create_cases (p : Part_conn) (name : String) :
    p.create_interface_for name = (-L4_EBUSY, p) ∨
    p.create_interface_for name = (-L4_ENODEV, p) ∨
    (p.create_interface_for name = (L4_EOK, { p with bound := true })
      ∧ p.bound = false ∧ (name == p.hid) = true) := by
  unfold Part_conn.create_interface_for
  rcases hb : p.bound with _ | _
  · rcases hh : name == p.hid with _ | _
    · right; left
      rw [if_neg (by simp), if_neg (by simp [hh])]
    · right; right
      exact ⟨by rw [if_neg (by simp), if_pos (by simp)], rfl, rfl⟩
  · rcases hh : name == p.hid with _ | _
    · right; left
      rw [if_pos (by simp)]
      simp only [Bool.false_eq_true, if_false]
    · left
      rw [if_pos (by simp)]
      simp only [if_true]

-- A completed partition loop leaves the children untouched and reports
-- in `busy` whether any child is bound.
theorem create_loop_none (name : String) :
    ∀ (subs : List Part_conn) (busy busy' : Bool) (subs' : List Part_conn),
      create_loop name subs busy = (none, busy', subs') →
      subs' = subs ∧ busy' = (busy || subs.any (fun p => p.bound)) := by
  intro subs
  induction subs with
  | nil =>
    intro busy busy' subs' h
    simp only [create_loop, Prod.mk.injEq] at h
    simp [← h.2.1, ← h.2.2]
  | cons p rest ih =>
    intro busy busy' subs' h
    rw [create_loop] at h
    rcases leaf_create_cases p name with hE | hE | ⟨hE, hpb, hph⟩ <;>
      rw [hE] at h <;> simp only at h
    · rw [if_pos (by norm_num [L4_EBUSY, L4_ENODEV])] at h
      exact absurd h (by simp)
    · rw [if_neg (by simp [L4_ENODEV])] at h
      rcases hr : create_loop name rest (busy || p.bound) with ⟨o, b, rest'⟩
      rw [hr] at h
      simp only [Prod.mk.injEq] at h
      obtain ⟨ho, hb', hs'⟩ := h
      obtain ⟨h1, h2⟩ := ih (busy || p.bound) b rest' (by rw [hr, ho])
      subst h1 h2
      constructor
      · rw [← hs']
      · rw [← hb']
        simp [Bool.or_assoc]
    · rw [if_pos (by norm_num [L4_EOK, L4_ENODEV])] at h
      exact absurd h (by simp)

-- When the first child matching the name is bound, the loop returns
-- Busy early and leaves the children unchanged.
theorem create_loop_busy_at (name : String) :
    ∀ (pre : List Part_conn) (p : Part_conn) (post : List Part_conn)
      (busy : Bool),
      (∀ q ∈ pre, (name == q.hid) = false) →
      (name == p.hid) = true → p.bound = true →
      ∃ b, create_loop name (pre ++ p :: post) busy
        = (some (-L4_EBUSY), b, pre ++ p :: post) := by
  intro pre
  induction pre with
  | nil =>
    intro p post busy _ hph hpb
    rw [List.nil_append, create_loop]
    have hE : p.create_interface_for name = (-L4_EBUSY, p) := by
      unfold Part_conn.create_interface_for
      rw [if_pos (by simp [hpb]), hph]
      simp only [if_true]
    rw [hE]
    simp only
    rw [if_pos (by norm_num [L4_EBUSY, L4_ENODEV])]
    exact ⟨busy || p.bound, rfl⟩
  | cons q pre ih =>
    intro p post busy hpre hph hpb
    rw [List.cons_append, create_loop]
    rw [leaf_create_no_match q name (hpre q (by simp))]
    simp only
    rw [if_neg (by simp)]
    obtain ⟨b, hb⟩ := ih p post (busy || q.bound)
      (fun r hr => hpre r (by simp [hr])) hph hpb
    rw [hb]
    exact ⟨b, rfl⟩

-- create_interface_for preserves root-child exclusion.
theorem create_preserves_inv (c : Connection) (name : String)
    (hinv : c.bound = true → ∀ p ∈ c.subs, p.bound = false) :
    (c.create_interface_for name).2.bound = true →
      ∀ p ∈ (c.create_interface_for name).2.subs, p.bound = false := by
  unfold Connection.create_interface_for
  rcases hb : c.bound with _ | _
  · rw [if_neg (by simp)]
    rcases hl : create_loop name c.subs false with ⟨o, busy, subs'⟩
    cases o with
    | some ret =>
      simp only
      intro habs
      exact absurd habs (by simp [hb])
    | none =>
      simp only
      rcases hh : name == c.hid with _ | _
      · simp only [Bool.false_eq_true, if_false]
        intro habs
        exact absurd habs (by simp [hb])
      · simp only [if_true]
        rcases hbusy : busy with _ | _
        · simp only [Bool.false_eq_true, if_false]
          intro _ p hp
          obtain ⟨hs, hany⟩ := create_loop_none name c.subs false busy subs' hl
          subst hs
          have : c.subs.any (fun p => p.bound) = false := by
            simpa [hbusy] using hany.symm
          simpa using List.any_eq_false.mp this p hp
        · simp only [if_true]
          intro habs
          exact absurd habs (by simp [hb])
  · rw [if_pos (by simp)]
    exact fun h p hp => hinv (by simp [hb]) p hp

-- Releasing an interface never binds anything.
theorem release_sub_preserves_unbound :
    ∀ (i : Nat) (subs : List Part_conn),
      (∀ p ∈ subs, p.bound = false) →
      ∀ p ∈ release_sub i subs, p.bound = false := by
  intro i subs
  induction subs generalizing i with
  | nil =>
    intro _ p hp
    rcases i with _ | _ <;> simp [release_sub] at hp
  | cons q rest ih =>
    intro hall p hp
    rcases i with _ | j
    · rcases (by simpa [release_sub] using hp :
          p = { q with bound := false } ∨ p ∈ rest) with h | h
      · rw [h]
      · exact hall p (by simp [h])
    · rcases (by simpa [release_sub] using hp : p = q ∨ p ∈ release_sub j rest)
        with h | h
      · exact hall p (by simp [h])
      · exact ih j (fun r hr => hall r (by simp [hr])) p h

theorem release_preserves_inv (c : Connection) (r : NodeRef)
    (hinv : c.bound = true → ∀ p ∈ c.subs, p.bound = false) :
    (c.release_interface r).bound = true →
      ∀ p ∈ (c.release_interface r).subs, p.bound = false := by
  cases r with
  | root =>
    intro habs
    exact absurd habs (by simp [Connection.release_interface])
  | part i =>
    intro hb p hp
    simp only [Connection.release_interface] at hb hp
    exact release_sub_preserves_unbound i c.subs (hinv hb) p hp

-- Every reachable subtree satisfies root-child exclusion.
theorem reachable_inv (c : Connection) (hc : Reachable c) :
    c.bound = true → ∀ p ∈ c.subs, p.bound = false := by
  induction hc with
  | init hid parts =>
    intro habs
    exact absurd habs (by simp [Connection.init])
  | create c0 name _ ih => exact create_preserves_inv c0 name ih
  | release c0 r _ ih => exact release_preserves_inv c0 r ih

-- With the root bound, any request naming a node of the subtree gets
-- Busy and the subtree is unchanged.
theorem create_busy_when_root_bound (c : Connection) (name : String)
    (hb : c.bound = true) (hmatch : c.contains_device name = true) :
    c.create_interface_for name = (-L4_EBUSY, c) := by
  unfold Connection.create_interface_for
  rw [if_pos (by simp [hb]), hmatch]
  simp only [if_true]

-- Requesting a bound child (the first child matching the name) gets
-- Busy and the subtree is unchanged.
theorem create_busy_child_bound (c : Connection) (name : String)
    (pre : List Part_conn) (p : Part_conn) (post : List Part_conn)
    (hb : c.bound = false) (hsplit : c.subs = pre ++ p :: post)
    (hpre : ∀ q ∈ pre, (name == q.hid) = false)
    (hph : (name == p.hid) = true) (hpb : p.bound = true) :
    c.create_interface_for name = (-L4_EBUSY, c) := by
  unfold Connection.create_interface_for
  rw [if_neg (by simp [hb])]
  obtain ⟨b, hl⟩ := create_loop_busy_at name pre p post false hpre hph hpb
  rw [hsplit, hl]
  simp only
  rw [← hsplit]

-- Requesting the root while some child is bound gets Busy and the
-- subtree is unchanged.
theorem create_busy_root_request (c : Connection) (name : String)
    (hb : c.bound = false) (hroot : (name == c.hid) = true)
    (hnosub : ∀ p ∈ c.subs, (name == p.hid) = false)
    (hsome : c.subs.any (fun p => p.bound) = true) :
    c.create_interface_for name = (-L4_EBUSY, c) := by
  unfold Connection.create_interface_for
  rw [if_neg (by simp [hb])]
  rw [create_loop_no_match name c.subs false hnosub]
  simp only [hroot, if_true, Bool.false_or, hsome]

/-- C7 counterexample: from the freshly scanned disk DISK with
partitions P1 and P2, create_interface_for "P1" and then "P2" both
succeed, and the resulting subtree — reachable by two factory calls —
has two interfaces bound at once, refuting the claim that at most one
interface is bound in the subtree at any time. -/
theorem connection_two_bound_counterexample :
    Reachable
      (((connTwoParts.create_interface_for "P1").2).create_interface_for
        "P2").2 ∧
    ((((connTwoParts.create_interface_for "P1").2).create_interface_for
        "P2").2).countBound = 2 ∧
    ¬ (2 ≤ 1) :=
  ⟨Reachable.create _ "P2" (Reachable.create _ "P1"
      (Reachable.init "DISK" ["P1", "P2"])),
   by decide, by decide⟩

/-- C7 (amended): in every reachable Connection subtree the root and the
children exclude each other — whenever the root interface is bound, no
child interface is bound (but two distinct children may be bound at the
same time) — and create_interface_for returns Busy without binding
anything when the named node is already bound, when a child is requested
while the root is bound, or when the root is requested while any child
is bound. -/
theorem connection_exclusive (c : Connection) (hc : Reachable c) :
    (c.bound = true → ∀ p ∈ c.subs, p.bound = false) ∧
    (∀ name, c.bound = true → c.contains_device name = true →
      c.create_interface_for name = (-L4_EBUSY, c)) ∧
    (∀ name pre p post, c.bound = false → c.subs = pre ++ p :: post →
      (∀ q ∈ pre, (name == q.hid) = false) → (name == p.hid) = true →
      p.bound = true →
      c.create_interface_for name = (-L4_EBUSY, c)) ∧
    (∀ name, c.bound = false → (name == c.hid) = true →
      (∀ p ∈ c.subs, (name == p.hid) = false) →
      c.subs.any (fun p => p.bound) = true →
      c.create_interface_for name = (-L4_EBUSY, c)) :=
  ⟨reachable_inv c hc,
   fun name hb hm => create_busy_when_root_bound c name hb hm,
   fun name pre p post hb hs hpre hph hpb =>
     create_busy_child_bound c name pre p post hb hs hpre hph hpb,
   fun name hb hr hns hsome =>
     create_busy_root_request c name hb hr hns hsome⟩

/-- C7 witness: with the root DISK bound, requesting partition P1 yields
Busy and the subtree is unchanged. -/
theorem connection_exclusive_witness :
    ((connTwoParts.create_interface_for "DISK").2).create_interface_for "P1"
      = (-L4_EBUSY, (connTwoParts.create_interface_for "DISK").2) :=
  (connection_exclusive _ (Reachable.create _ "DISK"
      (Reachable.init "DISK" ["P1", "P2"]))).2.1 "P1" (by rfl) (by rfl)

/-- C10 witness: a 256-sector transfer (131072 bytes of 512-byte
sectors) in 28-bit mode is admitted and encoded with count 0. -/
theorem ata_count_encoding_witness :
    (Ata.ata_taskfile infoDma28 5 0 [⟨0, 131072⟩] false).count
      = (sumSizes [⟨0, 131072⟩] / infoDma28.sector_size) %
          (if infoDma28.features.longaddr ≠ 0 then 65536 else 256) :=
  ata_count_encoding infoDma28 true 5 [⟨0, 131072⟩] false
    (Ata.ata_taskfile infoDma28 5 0 [⟨0, 131072⟩] false) rfl

end Ahci
